import Mathlib

/-!
# Verification of the CGRtools aromatics core (`CGRtools/algorithms/aromatics.py`)

Shallow embedding of the kekulization / aromatization (Thiele) algorithms of the
`Aromatize` mixin, together with theorems settling the frozen claims about them.

Modelling conventions:
* Python `dict`s (which iterate in insertion order) are embedded as association
  lists `List (Nat × α)` in insertion order.
* Python `set`s of atom ids are embedded as duplicate-free `List Nat` in
  insertion order.  CPython's set iteration order is implementation defined;
  insertion order is the deterministic stand-in used here.  No settled claim
  depends on which of the possible set orders is chosen.
* Exceptions (`InvalidAromaticRing`) become `Except String` / an `.err` result,
  carrying the static part of the raise message.
* The backtracking loop of `__kekule_component` runs on explicit fuel; fuel
  exhaustion (and the Python crashes that are possible on malformed inputs:
  `IndexError` from popping an empty branch, `ValueError` from `list.remove`
  or tuple unpacking) are modelled as the distinguished `none` / `.stuck`
  result, kept apart from `InvalidAromaticRing`.
-/

namespace CGR

/-- Association list keyed by atom ids, standing for a Python dict in insertion
order. -/
abbrev AList (α : Type) := List (Nat × α)

def aget? {α : Type} : AList α → Nat → Option α
  | [], _ => none
  | (k, v) :: t, n => if k = n then some v else aget? t n

def agetD {α : Type} (l : AList α) (n : Nat) (d : α) : α := (aget? l n).getD d

/-- Dict assignment `d[n] = v`: update in place if present, else append. -/
def aset {α : Type} : AList α → Nat → α → AList α
  | [], n, v => [(n, v)]
  | (k, w) :: t, n, v => if k = n then (k, v) :: t else (k, w) :: aset t n v

def akeys {α : Type} (l : AList α) : List Nat := l.map (·.1)

/-- Python `set.add` on the ordered-list model of a set. -/
def addOnce (l : List Nat) (n : Nat) : List Nat := if n ∈ l then l else l ++ [n]

/-- The aromatic-candidate skeleton: atom id ↦ ring neighbours
(`rings = defaultdict(set)` in the source). -/
abbrev Skeleton := AList (List Nat)

/-- `rings[n].add(m)` on a `defaultdict(set)`: creates the key if missing. -/
def skelAdd (s : Skeleton) (n m : Nat) : Skeleton :=
  match aget? s n with
  | some ms => aset s n (if m ∈ ms then ms else ms ++ [m])
  | none => s ++ [(n, [m])]

def skelGet (s : Skeleton) (n : Nat) : List Nat := agetD s n []

/-- `rings.pop(n)` (drop the key). -/
def skelRemove (s : Skeleton) (n : Nat) : Skeleton := s.filter (fun p => p.1 ≠ n)

/-- `rings[n].discard(m)`. -/
def skelDiscard (s : Skeleton) (n m : Nat) : Skeleton :=
  match aget? s n with
  | some ms => aset s n (ms.filter (· ≠ m))
  | none => s

/-- Number of directed skeleton edges, `sum(len(x) for x in rings.values())`. -/
def skelEdgeSum (s : Skeleton) : Nat := s.foldl (fun a p => a + p.2.length) 0

/--
The molecule state read and mutated by the aromatics code: per-atom attributes
(`_atoms` as atomic numbers, `_charges`, `_radicals`, `_hydrogens`,
`_hybridizations`), the bond adjacency `_bonds` (atom ↦ neighbour ↦ bond
order, symmetric: both directions hold the same order because Python stores a
shared `Bond` object), and the externally supplied minimal ring set `sssr`
(ordered atom cycles).  A `_hydrogens` value of Python `None` is embedded
as `0` (both are falsy in the only test performed, `if not ah`, and neither
equals `1`).
-/
structure Molecule where
  atoms : AList Nat
  charges : AList Int
  radicals : AList Bool
  hydrogens : AList Nat
  hybridizations : AList Nat
  bonds : AList (AList Nat)
  sssr : List (List Nat)
deriving Repr, DecidableEq

/-- First pass of `__prepare_rings` over `self._bonds`: collect the aromatic
adjacency (`bond order 4`), the set of atoms with a double bond and the set of
atoms with a triple bond, in iteration order. -/
def ringsInitStep (n : Nat) (acc : Skeleton × List Nat × List Nat) (q : Nat × Nat) :
    Skeleton × List Nat × List Nat :=
  if q.2 = 4 then (skelAdd acc.1 n q.1, acc.2.1, acc.2.2)
  else if q.2 = 2 then (acc.1, addOnce acc.2.1 n, acc.2.2)
  else if q.2 = 3 then (acc.1, acc.2.1, addOnce acc.2.2 n)
  else acc

def ringsInit (bonds : AList (AList Nat)) : Skeleton × List Nat × List Nat :=
  bonds.foldl (fun acc p => p.2.foldl (ringsInitStep p.1) acc) ([], [], [])

/-- `if n not in rings[m]: rings[m].add(n); rings[n].add(m)` — the edge-adding
step of the SSSR loop in `__prepare_rings` (note: `m` side first). -/
def prepAddEdge (rg : Skeleton) (n m : Nat) : Skeleton :=
  if n ∈ skelGet rg m then rg else skelAdd (skelAdd rg m n) n m

/-- Consecutive-pair edges `for n, m in zip(r, r[1:])` of a ring. -/
def prepAddPath (rg : Skeleton) : List Nat → Skeleton
  | n :: m :: t => prepAddPath (prepAddEdge rg n m) (m :: t)
  | _ => rg

/-- All edges of one SSSR ring: the closing first/last edge (`n, *_, m = r`)
then the consecutive pairs.  Rings of length < 2 are skipped (in Python the
tuple unpacking would crash; SSSR rings always have length ≥ 3). -/
def prepAddRing (rg : Skeleton) (r : List Nat) : Skeleton :=
  match r.head?, r.getLast? with
  | some n, some m =>
    if r.length < 2 then rg else prepAddPath (prepAddEdge rg n m) r
  | _, _ => rg

/-- Outcome of the per-atom valence classification in `__prepare_rings`:
atom is added to `double_bonded`, to `pyroles`, or accepted unclassified. -/
inductive Role where
  | plain
  | dbl
  | pyr
deriving Repr, DecidableEq

instance instDecEqExcept {ε α : Type} [DecidableEq ε] [DecidableEq α] :
    DecidableEq (Except ε α)
  | .error e1, .error e2 =>
    if h : e1 = e2 then .isTrue (by rw [h]) else .isFalse (by simp [h])
  | .error _, .ok _ => .isFalse (by simp)
  | .ok _, .error _ => .isFalse (by simp)
  | .ok a1, .ok a2 =>
    if h : a1 = a2 then .isTrue (by rw [h]) else .isFalse (by simp [h])

/--
The element-indexed decision table of `__prepare_rings` (lines 172-275),
factored per atom.  Arguments: atomic number `an`, charge `ac`, radical flag
`rad`, total bond count `ab` (`len(bonds[n])`), hydrogen count `ah`
(`hydrogens[n]`, `None ↦ 0`) and whether the atom is already in
`double_bonded` (`inDbl`, used only by the S/Se/Te branch's guard).
Messageless `raise InvalidAromaticRing` sites carry `"invalid aromatic ring"`.
-/
def classifyAtom (an : Nat) (ac : Int) (rad : Bool) (ab ah : Nat) (inDbl : Bool) :
    Except String Role :=
  if an = 6 then  -- carbon
    if ac = 0 then
      if ab = 2 ∨ ab = 3 then .ok .plain else .error "invalid aromatic ring"
    else if ac = -1 ∨ ac = 1 then
      if rad then
        if ab = 2 then .ok .dbl else .error "invalid aromatic ring"
      else if ab = 3 then .ok .dbl
      else if ab = 2 then .ok .pyr  -- benzene anion/cation or pyrole
      else .error "invalid aromatic ring"
    else .error "invalid aromatic ring"
  else if an = 7 ∨ an = 15 then  -- nitrogen, phosphorus
    if ac = 0 then  -- pyrole or pyridine, incl. radical pyrole
      if rad then
        if ab ≠ 2 then .error "invalid aromatic ring" else .ok .dbl
      else if ab = 3 then
        if an = 7 then .ok .dbl else .ok .pyr  -- N: pyrole only; P(III)/P(V)H
      else if ab = 2 then
        if ah = 0 then .ok .pyr
        else if ah = 1 then .ok .dbl  -- only pyrole
        else .error "invalid aromatic ring"
      else if ab ≠ 4 ∨ an ≠ 15 then .error "invalid aromatic ring"
      else .ok .plain  -- P(V) in ring
    else if ac = -1 then  -- pyrole only
      if ab ≠ 2 ∨ rad then .error "invalid aromatic ring" else .ok .dbl
    else if ac ≠ 1 then .error "invalid aromatic ring"
    else if rad then
      if ab ≠ 2 then .error "invalid aromatic ring" else .ok .plain
    else if ab = 2 then .ok .pyr  -- pyrole cation or protonated pyridine
    else if ab ≠ 3 then .error "invalid aromatic ring"
    else .ok .plain  -- pyridine oxyde
  else if an = 8 then  -- furan oxygen
    if ab = 2 ∧ ((ac = 0 ∧ ¬rad) ∨ (ac = 1 ∧ rad)) then .ok .dbl
    else .error "invalid aromatic ring"
  else if an = 16 ∨ an = 34 ∨ an = 52 then  -- thiophene S/Se/Te
    if inDbl then .ok .plain  -- sulphoxyde/sulphone: guarded out, keeps dbl
    else if ab = 2 then
      if rad then
        if ac = 1 then .ok .dbl else .error "S, Se, Te cation-radical expected"
      else if ac = 0 then .ok .dbl
      else if ac ≠ 1 then .error "S, Se, Te cation in benzene like ring expected"
      else .ok .plain  -- neutral-radical handled above; bare cation accepted
    else .error "S, Se, Te hypervalent ring"
  else if an = 5 then  -- boron
    if ac = 0 then
      if ab = 2 then
        if rad then .ok .dbl else .ok .pyr
      else if ¬rad then .ok .dbl
      else .error "invalid aromatic ring"
    else if ac = 1 then
      if ab = 2 ∧ ¬rad then .ok .dbl else .error "invalid aromatic ring"
    else if ac = -1 then
      if ab = 2 then
        if ¬rad then .ok .pyr else .ok .plain  -- anion-radical is benzene like
      else if rad then .ok .dbl
      else .ok .pyr
    else .error "invalid aromatic ring"
  else .error "only B, C, N, P, O, S, Se, Te possible"

/--
`__prepare_rings`: build the aromatic skeleton from order-4 bonds, complete it
with the edges of fully-aromatic SSSR rings, run the structural checks and the
per-atom classification.  Returns `(rings, pyroles, double_bonded)`.
-/
def prepareRings (M : Molecule) : Except String (Skeleton × List Nat × List Nat) :=
  let rdt := ringsInit M.bonds
  let rg0 := rdt.1
  let dbl0 := rdt.2.1
  let tbl := rdt.2.2
  if rg0 = [] then .ok ([], [], [])
  else if tbl.any (fun n => (aget? rg0 n).isSome) then
    .error "triple bonds connected to rings"
  else
    let rg := M.sssr.foldl
      (fun rg r =>
        if r.all (fun n => (aget? rg n).isSome) then prepAddRing rg r else rg)
      rg0
    if ¬ rg.all (fun p => p.2.length = 2 ∨ p.2.length = 3) then
      .error "not in ring aromatic bond or hypercondensed rings"
    else
      let dbl1 := dbl0.filter (fun n => (aget? rg n).isSome)
      if ¬ dbl1.all (fun n => (skelGet rg n).length = 2) then
        .error "quinone valence error"
      else if ¬ dbl1.all (fun n =>
          (agetD M.atoms n 0 = 6 ∨ agetD M.atoms n 0 = 15 ∨ agetD M.atoms n 0 = 16 ∨
           agetD M.atoms n 0 = 34 ∨ agetD M.atoms n 0 = 52) ∧ agetD M.charges n 0 = 0) then
        .error "quinone should be neutral S, Se, Te, C, P atom"
      else
        (rg.foldl
          (fun (acc : Except String (List Nat × List Nat)) p =>
            match acc with
            | .error e => .error e
            | .ok (pyr, dbl) =>
              let n := p.1
              match classifyAtom (agetD M.atoms n 0) (agetD M.charges n 0)
                  (agetD M.radicals n false) (agetD M.bonds n []).length
                  (agetD M.hydrogens n 0) (n ∈ dbl) with
              | .error e => .error e
              | .ok .dbl => .ok (pyr, addOnce dbl n)
              | .ok .pyr => .ok (addOnce pyr n, dbl)
              | .ok .plain => .ok (pyr, dbl))
          (.ok ([], dbl1))).map (fun pd => (rg, pd.1, pd.2))

/-! ## Component splitting (`__kekule_full`, breadth-first) -/

/-- One BFS, as in `__kekule_full`: a `deque` of pending atoms and the
component dict in insertion order.  Fuel bounds the number of dequeues. -/
def bfsStep (rg : Skeleton) : Nat → List Nat → Skeleton → Skeleton
  | 0, _, comp => comp
  | fuel + 1, queue, comp =>
    match queue with
    | [] => comp
    | cur :: qs =>
      let qc := (skelGet rg cur).foldl
        (fun (acc : List Nat × Skeleton) n =>
          if (aget? acc.2 n).isSome then acc
          else (acc.1 ++ [n], acc.2 ++ [(n, skelGet rg n)]))
        (qs, comp)
      bfsStep rg fuel qc.1 qc.2

/-- Split the skeleton into connected components (`atoms = set(rings)` is
modelled as the key list; `atoms.pop()` takes the first remaining key). -/
def splitComponents (rg : Skeleton) : Nat → List Nat → List Skeleton
  | 0, _ => []
  | fuel + 1, remaining =>
    match remaining with
    | [] => []
    | start :: _ =>
      let comp := bfsStep rg (rg.length + 1) [start] [(start, skelGet rg start)]
      comp :: splitComponents rg fuel (remaining.filter (fun n => (aget? comp n).isNone))

/-! ## The backtracking kekulization search (`__kekule_component`) -/

/-- A pending work item `(current atom, previous atom, bond, path cut depth)`;
the cut depth is `None` when cutting there is impossible. -/
abbrev WItem := Nat × Nat × Nat × Option Nat

/-- One alternative branch: a Python list of work items, index 0 first. -/
abbrev Branch := List WItem

/-- One assigned edge `(atom, neighbour, order)`. -/
abbrev Triple := Nat × Nat × Nat

/-- `list.pop()` from the Python end; `none` on the empty list (IndexError). -/
def pyPop {α : Type} (l : List α) : Option (List α × α) :=
  match l.getLast? with
  | none => none
  | some x => some (l.dropLast, x)

/-- `list.remove(v)`: drop the first occurrence scanning from the Python
front; `none` when absent (ValueError). -/
def removeFirst {α : Type} [DecidableEq α] : List α → α → Option (List α)
  | [], _ => none
  | x :: t, v => if x = v then some t else (removeFirst t v).map (x :: ·)

/-- After `del stack[-1]`: truncate the committed path to the cut depth stored
in the last work item of the new top branch (`path[:stack[-1][-1][-1]]`,
`path[:None]` keeps it whole) and recompute the visited set.  `none` models
the IndexError when the new top branch is empty.  The stack is stored with the
active (Python last) branch first. -/
def truncState (rest : List Branch) (path : List Triple) (hashed : List Nat) :
    Option (List Triple × List Nat) :=
  match rest with
  | [] => some (path, hashed)
  | b :: _ =>
    match b.getLast? with
    | none => none
    | some it =>
      match it.2.2.2 with
      | none => some (path, path.map (·.1))
      | some d => some (path.take d, (path.take d).map (·.1))

/-- Partition `rings[atom]` into the start-closing neighbour (`loop`, 0 when
absent — mirroring the Python falsy test), already-visited closure neighbours
and fresh forward neighbours, skipping the atom we arrived from. -/
def classifyNbrs (nbrs : List Nat) (prev start : Nat) (hashed : List Nat) :
    Nat × List Nat × List Nat :=
  nbrs.foldl
    (fun (acc : Nat × List Nat × List Nat) na =>
      if na = prev then acc
      else if na = start then (na, acc.2.1, acc.2.2)
      else if na ∈ hashed then (acc.1, acc.2.1 ++ [na], acc.2.2)
      else (acc.1, acc.2.1, acc.2.2 ++ [na]))
    (0, [], [])

/-- The closure loop of the double-in case: for each closure neighbour append
the single-bonded edge to the path and `remove` the mirrored fork item from
the branch (`none` on ValueError). -/
def closuresCommit (branch : Branch) (path : List Triple) (closures : List Nat)
    (atom : Nat) : Option (Branch × List Triple) :=
  closures.foldl
    (fun acc na =>
      match acc with
      | none => none
      | some (b, p) =>
        match removeFirst b (atom, na, 1, none) with
        | none => none
        | some b2 => some (b2, p ++ [(na, atom, 1)]))
    (some (branch, path))

/--
The `while stack:` loop of `__kekule_component`.  State: the stack of branches
(active branch first, each branch in Python list order), the committed `path`,
the visited set `hashed_path`, and the accumulated yields.  Returns the list
of yielded assignments in yield order, or `none` on fuel exhaustion / a
modelled Python crash.
-/
def kloop (rg : Skeleton) (dbl pyr : List Nat) (start size : Nat) :
    Nat → List Branch → List Triple → List Nat → List (List Triple) →
    Option (List (List Triple))
  | 0, stack, _, _, acc => if stack.isEmpty then some acc.reverse else none
  | fuel + 1, stack, path, hashed, acc =>
    match stack with
    | [] => some acc.reverse
    | branch :: rest =>
      match pyPop branch with
      | none => none
      | some (br, it) =>
        let atom := it.1
        let prev := it.2.1
        let bond := it.2.2.1
        let path := path ++ [(atom, prev, bond)]
        let hashed := atom :: hashed
        if path.length = size then
          match truncState rest path hashed with
          | none => none
          | some ph => kloop rg dbl pyr start size fuel rest ph.1 ph.2 (path :: acc)
        else if atom = start then
          kloop rg dbl pyr start size fuel (br :: rest) path hashed acc
        else
          let cls := classifyNbrs (skelGet rg atom) prev start hashed
          let lp := cls.1
          let closures := cls.2.1
          let fs := cls.2.2
          -- the `if loop:` start-closing block; `none` signals branch abandon
          let act : Option (Branch × Nat) :=
            if lp ≠ 0 then
              if bond = 2 then
                if dbl ≠ [] then some ((lp, atom, 1, none) :: br, bond)
                else none
              else if dbl ≠ [] then
                if fs ≠ [] ∨ atom ∈ dbl ∨ atom ∈ pyr then
                  some ((lp, atom, 1, none) :: br, bond)
                else none
              else some ((lp, atom, 2, none) :: br, 2)
            else some (br, bond)
          match act with
          | none =>
            match truncState rest path hashed with
            | none => none
            | some ph => kloop rg dbl pyr start size fuel rest ph.1 ph.2 acc
          | some (br, bond) =>
            if bond = 2 ∨ atom ∈ dbl then
              -- double in (or quinone): closures and forward all single out
              match closuresCommit br path closures atom with
              | none => none
              | some bp =>
                let br2 := fs.foldl (fun b na => b ++ [(na, atom, 1, none)]) bp.1
                kloop rg dbl pyr start size fuel (br2 :: rest) bp.2 hashed acc
            else
              match fs with
              | [na] =>  -- easy path grow
                if na ∈ dbl then
                  if atom ∈ pyr then
                    kloop rg dbl pyr start size fuel
                      ((br ++ [(na, atom, 1, none)]) :: rest) path hashed acc
                  else
                    match truncState rest path hashed with
                    | none => none
                    | some ph => kloop rg dbl pyr start size fuel rest ph.1 ph.2 acc
                else if atom ∈ pyr then  -- try pyrole and pyridine
                  let opposite := br ++ [(na, atom, 2, none)]
                  let br2 := br ++ [(na, atom, 1, some path.length)]
                  kloop rg dbl pyr start size fuel (opposite :: br2 :: rest) path hashed acc
                else
                  let br2 := br ++ [(na, atom, 2, none)]
                  match closures with
                  | [] => kloop rg dbl pyr start size fuel (br2 :: rest) path hashed acc
                  | c :: _ =>
                    match removeFirst br2 (atom, c, 1, none) with
                    | none => none
                    | some br3 =>
                      kloop rg dbl pyr start size fuel (br3 :: rest)
                        (path ++ [(c, atom, 1)]) hashed acc
              | [na1, na2] =>  -- fork
                if na1 ∈ dbl then
                  if na2 ∈ dbl then  -- bad path
                    match truncState rest path hashed with
                    | none => none
                    | some ph => kloop rg dbl pyr start size fuel rest ph.1 ph.2 acc
                  else
                    kloop rg dbl pyr start size fuel
                      ((br ++ [(na1, atom, 1, none), (na2, atom, 2, none)]) :: rest)
                      path hashed acc
                else if na2 ∈ dbl then
                  kloop rg dbl pyr start size fuel
                    ((br ++ [(na2, atom, 1, none), (na1, atom, 2, none)]) :: rest)
                    path hashed acc
                else  -- new path: push the opposite assignment as well
                  let br2 := br ++ [(na1, atom, 1, none), (na2, atom, 2, some path.length)]
                  let opposite := br ++ [(na2, atom, 1, none), (na1, atom, 2, none)]
                  kloop rg dbl pyr start size fuel (opposite :: br2 :: rest) path hashed acc
              | [] =>
                if closures ≠ [] ∧ atom ∉ pyr then
                  match truncState rest path hashed with
                  | none => none
                  | some ph => kloop rg dbl pyr start size fuel rest ph.1 ph.2 acc
                else
                  kloop rg dbl pyr start size fuel (br :: rest) path hashed acc
              | _ => none  -- ValueError: at most two forward neighbours can unpack

/-- Start-atom selection of `__kekule_component` and the initial stack: one
single-item branch per start neighbour (in neighbour order; the Python stack
explores its last entry first, hence the reversal into the active-first
representation).  Returns `(start, double_bonded, stack)`. -/
def kekuleStart (rg : Skeleton) (dbl pyr : List Nat) :
    Option (Nat × List Nat × List Branch) :=
  match dbl with
  | d :: _ =>  -- start from a double bonded atom if one exists
    match (skelGet rg d).head? with
    | none => none
    | some na => some (d, dbl, [[(na, d, 1, some 0)]])
  | [] =>
    match rg.find? (fun p => p.2.length = 2 ∧ p.1 ∉ pyr) with
    | some st => some (st.1, dbl, (st.2.map (fun na => [(na, st.1, 1, some 0)])).reverse)
    | none =>
      match rg.find? (fun p => p.2.length = 2) with
      | some st => some (st.1, dbl, (st.2.map (fun na => [(na, st.1, 1, some 0)])).reverse)
      | none =>  -- fullerene? force the first atom to be double bonded
        match rg with
        | [] => none
        | st :: _ =>
          some (st.1, [st.1], (st.2.map (fun na => [(na, st.1, 2, some 0)])).reverse)

/-- `__kekule_component` for one component: run the search to exhaustion;
an empty yield list raises `InvalidAromaticRing` ("kekule form not found"). -/
def kekuleComponent (rg : Skeleton) (dbl pyr : List Nat) (fuel : Nat) :
    Option (Except String (List (List Triple))) :=
  match kekuleStart rg dbl pyr with
  | none => none
  | some sds =>
    let size := skelEdgeSum rg / 2
    match kloop rg sds.2.1 pyr sds.1 size fuel sds.2.2 [] [] [] with
    | none => none
    | some sols =>
      some (if sols.isEmpty then .error "kekule form not found" else .ok sols)

/-- Modelled from the spec: `lazy_product` (from the absent `_functions`
module) takes the lazy Cartesian product of the per-component solution
sequences; the product of zero sequences is the single empty tuple (§4.3:
"the Enumerator lazily takes the Cartesian product across components"). -/
def cartProd {α : Type} : List (List α) → List (List α)
  | [] => [[]]
  | xs :: rest => (xs.map (fun x => (cartProd rest).map (fun t => x :: t))).flatten

/-- Sequence the per-component results: the first crash (`none`) or the first
component error aborts the whole enumeration. -/
def seqComps {α : Type} : List (Option (Except String α)) → Option (Except String (List α))
  | [] => some (.ok [])
  | none :: _ => none
  | some (.error e) :: _ => some (.error e)
  | some (.ok x) :: t =>
    match seqComps t with
    | none => none
    | some (.error e) => some (.error e)
    | some (.ok xs) => some (.ok (x :: xs))

/-- Result of a conversion attempt: value, `InvalidAromaticRing`, or the
modelling artefact `stuck` (fuel exhaustion / Python crash). -/
inductive Res (α : Type) where
  | ok (val : α)
  | err (msg : String)
  | stuck
deriving Repr, DecidableEq

/-- `__kekule_full`: prepare the rings, split into components, search each
component, combine solutions across components and flatten each combination
(`yield [x for x in keks for x in x]`). -/
def kekuleFull (M : Molecule) (fuel : Nat) : Res (List (List Triple)) :=
  match prepareRings M with
  | .error e => .err e
  | .ok rpd =>
    let rg := rpd.1
    let pyr := rpd.2.1
    let dbl := rpd.2.2
    let comps := splitComponents rg (rg.length + 1) (akeys rg)
    match seqComps (comps.map (fun c =>
        kekuleComponent c (dbl.filter (fun n => (aget? c n).isSome))
          (pyr.filter (fun n => (aget? c n).isSome)) fuel)) with
    | none => .stuck
    | some (.error e) => .err e
    | some (.ok solLists) => .ok ((cartProd solLists).map List.flatten)

/-! ## Patching a solution onto the molecule (`__kekule_patch`) -/

/-- `bonds[n][m]._Bond__order = b` for one direction (update only; the key
always exists for skeleton edges of a well-formed molecule). -/
def setBondDir (bonds : AList (AList Nat)) (n m b : Nat) : AList (AList Nat) :=
  bonds.map (fun p =>
    if p.1 = n then (p.1, p.2.map (fun q => if q.1 = m then (q.1, b) else q)) else p)

/-- Setting one bond order mutates the shared `Bond` object, hence both
adjacency directions. -/
def setBond (bonds : AList (AList Nat)) (n m b : Nat) : AList (AList Nat) :=
  setBondDir (setBondDir bonds n m b) m n b

/-- `_calc_hybridization` is not part of the sources.  Modelled from the spec
(§1: hybridization-mark computation is an external pure function of the local
bond context) following the in-repo rule of `reset_query_marks`
(`containers/molecule.py`): aromatic bond → 4, triple → 3, two doubles → 3,
one double → 2, else 1. -/
def calcHybridization (bonds : AList (AList Nat)) (n : Nat) : Nat :=
  (agetD bonds n []).foldl
    (fun hyb q =>
      if hyb = 3 ∨ hyb = 4 then hyb
      else if q.2 = 4 then 4
      else if q.2 = 3 then 3
      else if q.2 = 2 then (if hyb = 2 then 3 else 2)
      else hyb)
    1

/-- Modelled from the spec: `_calc_implicit` is not part of the sources; the
spec (§1) has implicit-hydrogen calculation as an external pure function of
the local bond/charge context.  Standard valence minus the sum of explicit
bond orders, clamped at zero.  No settled claim depends on its values. -/
def elementValence (an : Nat) : Nat :=
  if an = 5 then 3
  else if an = 6 then 4
  else if an = 7 then 3
  else if an = 8 then 2
  else if an = 15 then 3
  else 2

/-- Modelled from the spec: see `elementValence`. -/
def calcImplicitH (atoms : AList Nat) (bonds : AList (AList Nat)) (n : Nat) : Nat :=
  elementValence (agetD atoms n 0) - (agetD bonds n []).foldl (fun a q => a + q.2) 0

/-- The bond-table updates of `__kekule_patch`. -/
def patchBonds (bonds : AList (AList Nat)) (patch : List Triple) : AList (AList Nat) :=
  patch.foldl (fun bs t => setBond bs t.1 t.2.1 t.2.2) bonds

/-- The set of atoms touched by a patch, in encounter order. -/
def patchTouched (patch : List Triple) : List Nat :=
  patch.foldl (fun s t => addOnce (addOnce s t.1) t.2.1) []

/-- `__kekule_patch`: write every assigned order into the bond table, then
recompute the hybridization mark and implicit-hydrogen count of every touched
atom. -/
def kekulePatch (M : Molecule) (patch : List Triple) : Molecule :=
  let bonds := patchBonds M.bonds patch
  let touched := patchTouched patch
  { M with
    bonds := bonds
    hybridizations :=
      touched.foldl (fun h n => aset h n (calcHybridization bonds n)) M.hybridizations
    hydrogens :=
      touched.foldl (fun h n => aset h n (calcImplicitH M.atoms bonds n)) M.hydrogens }

/-- `kekule()`: take the first solution of `__kekule_full` (`next(..., None)`)
and apply it if truthy (a non-empty assignment).  Returns the molecule after
the call paired with the outcome; on an exception the molecule is the state at
raise time. -/
def kekuleRun (M : Molecule) (fuel : Nat) : Molecule × Res Bool :=
  match kekuleFull M fuel with
  | .stuck => (M, .stuck)
  | .err e => (M, .err e)
  | .ok sols =>
    match sols.head? with
    | none => (M, .ok false)
    | some [] => (M, .ok false)
    | some patch => (kekulePatch M patch, .ok true)

/-- `enumerate_kekule()`: one patched copy of the molecule per solution of
`__kekule_full`, in yield order. -/
def enumerateKekule (M : Molecule) (fuel : Nat) : Res (List Molecule) :=
  match kekuleFull M fuel with
  | .stuck => .stuck
  | .err e => .err e
  | .ok sols => .ok (sols.map (kekulePatch M))

/-! ## Aromatization (`thiele`) -/

/-- `rings[n].add(m); rings[m].add(n)` as done in `thiele` (note: `n` side
first, unconditionally — set-add is idempotent). -/
def thieleAddEdge (rg : Skeleton) (n m : Nat) : Skeleton := skelAdd (skelAdd rg n m) m n

/-- Consecutive-pair edges of one ring in `thiele`. -/
def thieleAddPath (rg : Skeleton) : List Nat → Skeleton
  | n :: m :: t => thieleAddPath (thieleAddEdge rg n m) (m :: t)
  | _ => rg

/-- Step 1 of `thiele`: the candidate skeleton from every SSSR ring whose
atoms all have hybridization mark 2 and atomic number in {B, C, N, P}. -/
def thieleSkeleton (M : Molecule) : Skeleton :=
  M.sssr.foldl
    (fun rg ring =>
      if ring.all (fun n =>
          agetD M.hybridizations n 0 = 2 ∧
          (agetD M.atoms n 0 = 5 ∨ agetD M.atoms n 0 = 6 ∨
           agetD M.atoms n 0 = 7 ∨ agetD M.atoms n 0 = 15)) then
        match ring.head?, ring.getLast? with
        | some n, some m =>
          if ring.length < 2 then rg else thieleAddPath (thieleAddEdge rg n m) ring
        | _, _ => rg
      else rg)
    []

/-- The quinone atoms of `thiele`: skeleton atoms with a double bond to an
atom outside the skeleton, in skeleton order. -/
def thieleQuinones (M : Molecule) (rg : Skeleton) : List Nat :=
  (akeys rg).filter (fun n =>
    (agetD M.bonds n []).any (fun q => (aget? rg q.1).isNone ∧ q.2 = 2))

/-- `for m in rings.pop(n): rings[m].discard(n)` — delete one atom and its
incident skeleton edges. -/
def removeAtomEdges (rg : Skeleton) (n : Nat) : Skeleton :=
  (skelGet rg n).foldl (fun r m => skelDiscard r m n) (skelRemove rg n)

/--
The dangling-chain loop of `thiele` (lines 54-63), exactly as written: find
the first atom `n` of degree 1, then `m = rings.pop(n).pop()` and
`pm = rings.pop(m); pm.discard(n); for x in pm: rings[x].discard(m)` —
i.e. it deletes **both** the degree-1 atom and its neighbour `m`, whatever
the degree of `m`.  `none` on fuel exhaustion.
-/
def thieleTrimLoop : Nat → Skeleton → Option Skeleton
  | 0, _ => none
  | fuel + 1, rg =>
    match rg.find? (fun p => p.2.length = 1) with
    | none => some rg
    | some p =>
      match p.2 with
      | [] => some rg  -- unreachable: the found entry has length 1
      | m :: _ =>
        let rg1 := skelRemove rg p.1
        let pm := (skelGet rg1 m).filter (· ≠ p.1)
        let rg2 := pm.foldl (fun r x => skelDiscard r x m) (skelRemove rg1 m)
        thieleTrimLoop fuel rg2

/--
Follows the spec's words (§4.5 step 3), for comparison with the code's
`thieleTrimLoop`: "Remove each quinone atom from the skeleton, then
iteratively strip any resulting degree-1 atom (dangling chain)" — i.e. each
iteration deletes only the degree-1 atom itself.
-/
def specTrimLoop : Nat → Skeleton → Option Skeleton
  | 0, _ => none
  | fuel + 1, rg =>
    match rg.find? (fun p => p.2.length = 1) with
    | none => some rg
    | some p => specTrimLoop fuel (removeAtomEdges rg p.1)

/-- Breadth-first path search used by the modelled ring-finder: parent map of
a BFS from the start vertex, never crossing the forbidden edge `{u, v}`. -/
def bfsParents (rg : Skeleton) (u v : Nat) : Nat → List Nat → AList Nat → AList Nat
  | 0, _, par => par
  | fuel + 1, queue, par =>
    match queue with
    | [] => par
    | cur :: qs =>
      let qp := (skelGet rg cur).foldl
        (fun (acc : List Nat × AList Nat) nb =>
          if (cur = v ∧ nb = u) ∨ (cur = u ∧ nb = v) then acc
          else if (aget? acc.2 nb).isSome then acc
          else (acc.1 ++ [nb], acc.2 ++ [(nb, cur)]))
        (qs, par)
      bfsParents rg u v fuel qp.1 qp.2

/-- Walk a BFS parent map back from `cur` to the BFS source `src`. -/
def tracePath (par : AList Nat) (src : Nat) : Nat → Nat → List Nat
  | 0, _ => []
  | fuel + 1, cur =>
    if cur = src then [cur]
    else
      match aget? par cur with
      | none => []
      | some p => cur :: tracePath par src fuel p

/-- Insertion (stable, by length) into a list of cycles. -/
def insByLen (c : List Nat) : List (List Nat) → List (List Nat)
  | [] => [c]
  | d :: t => if c.length < d.length then c :: d :: t else d :: insByLen c t

/-- Two cycles visit the same vertex set (both are duplicate-free). -/
def sameCycle (c d : List Nat) : Bool :=
  c.length == d.length && c.all (fun x => d.contains x) && d.all (fun x => c.contains x)

/-- Modelled from the spec: `self._sssr(rings, n_sssr)` — the external
minimal-ring-set finder (§1 and §4.5 step 5: "re-derive the minimal ring set
for exactly that skeleton (delegated to the external ring-finder)").  For each
skeleton edge take a shortest cycle through it (a breadth-first path between
its endpoints avoiding the edge itself, closed by the edge), drop duplicates
(same vertex set), order by length and keep `n` rings. -/
def modelSSSR (rg : Skeleton) (n : Nat) : List (List Nat) :=
  let edges := rg.foldl
    (fun acc p => p.2.foldl
      (fun (a : List (Nat × Nat)) m =>
        if a.any (fun e => e.1 = p.1 ∧ e.2 = m ∨ e.1 = m ∧ e.2 = p.1) then a
        else a ++ [(p.1, m)]) acc)
    []
  let cycles := edges.filterMap (fun e =>
    let par := bfsParents rg e.1 e.2 (rg.length + 1) [e.2] [(e.2, e.2)]
    match tracePath par e.2 (rg.length + 1) e.1 with
    | [] => none
    | c => if 3 ≤ c.length then some c else none)
  let dedup := cycles.foldl
    (fun (acc : List (List Nat)) c =>
      if acc.any (fun d => sameCycle d c) then acc else acc ++ [c])
    []
  ((dedup.foldl (fun a c => insByLen c a) []).take n)

/-- Mark every edge of one ring aromatic (closing edge, then consecutive
pairs; each write hits the shared `Bond`, hence both directions). -/
def setRingAromatic (bs : AList (AList Nat)) (ring : List Nat) : AList (AList Nat) :=
  match ring.head?, ring.getLast? with
  | some n, some m =>
    if ring.length < 2 then bs
    else
      let rec go (bs : AList (AList Nat)) : List Nat → AList (AList Nat)
        | a :: b :: t => go (setBond bs a b 4) (b :: t)
        | _ => bs
      go (setBond bs n m 4) ring
  | _, _ => bs

/--
`thiele()`: build the candidate skeleton, trim quinones (only when some
exist), recompute the ring count by Euler's formula, re-derive the ring set
for the trimmed skeleton, then mark those rings' bonds and atoms aromatic.
(`self.sssr` is a cached property of the connectivity only, which these
order-mutations do not change, so the stored `sssr` field is kept.)
Returns the molecule after the call and the boolean result; `none` only on
fuel exhaustion inside the trim loop.
-/
def thieleRun (M : Molecule) : Option (Molecule × Bool) :=
  let rg := thieleSkeleton M
  if rg = [] then some (M, false)
  else
    let dbl := thieleQuinones M rg
    let trimmed :=
      if dbl = [] then some rg
      else thieleTrimLoop (rg.length + 1) (dbl.foldl removeAtomEdges rg)
    match trimmed with
    | none => none
    | some rg2 =>
      if rg2 = [] then some (M, false)
      else
        let ncomp := (splitComponents rg2 (rg2.length + 1) (akeys rg2)).length
        -- `sum(len(x))//2 - len(rings) + len(components)`, the cycle rank;
        -- reassociated for ℕ (the Python value is never negative)
        let nsssr := skelEdgeSum rg2 / 2 + ncomp - rg2.length
        if nsssr = 0 then some (M, false)
        else
          let newRings := modelSSSR rg2 nsssr
          let bonds := newRings.foldl setRingAromatic M.bonds
          let seen := newRings.foldl (fun s r => r.foldl addOnce s) []
          some
            ({ M with
                bonds := bonds
                hybridizations := seen.foldl (fun h n => aset h n 4) M.hybridizations },
              true)

/-! ## Concrete molecules used by the claims -/

/-- Benzene in aromatic form: six carbons 1-6 in a ring, all six ring bonds of
order 4. -/
def benzene : Molecule :=
  { atoms := [(1, 6), (2, 6), (3, 6), (4, 6), (5, 6), (6, 6)]
    charges := [(1, 0), (2, 0), (3, 0), (4, 0), (5, 0), (6, 0)]
    radicals := [(1, false), (2, false), (3, false), (4, false), (5, false), (6, false)]
    hydrogens := [(1, 1), (2, 1), (3, 1), (4, 1), (5, 1), (6, 1)]
    hybridizations := [(1, 4), (2, 4), (3, 4), (4, 4), (5, 4), (6, 4)]
    bonds :=
      [(1, [(2, 4), (6, 4)]), (2, [(1, 4), (3, 4)]), (3, [(2, 4), (4, 4)]),
       (4, [(3, 4), (5, 4)]), (5, [(4, 4), (6, 4)]), (6, [(5, 4), (1, 4)])]
    sssr := [[1, 2, 3, 4, 5, 6]] }

/-- Benzene in the canonical Kekulé form: the form `kekule()` itself produces
from `benzene` (orders 2,1,2,1,2,1 around 1-2-3-4-5-6), sp2 marks. -/
def benzeneK : Molecule :=
  { atoms := benzene.atoms
    charges := benzene.charges
    radicals := benzene.radicals
    hydrogens := benzene.hydrogens
    hybridizations := [(1, 2), (2, 2), (3, 2), (4, 2), (5, 2), (6, 2)]
    bonds :=
      [(1, [(2, 2), (6, 1)]), (2, [(1, 2), (3, 1)]), (3, [(2, 1), (4, 2)]),
       (4, [(3, 2), (5, 1)]), (5, [(4, 1), (6, 2)]), (6, [(5, 2), (1, 1)])]
    sssr := [[1, 2, 3, 4, 5, 6]] }

/-- Benzene with an exocyclic triple bond (atom 7) attached to ring atom 1:
`kekule()` must raise "triple bonds connected to rings". -/
def benzyne : Molecule :=
  { atoms := benzene.atoms ++ [(7, 6)]
    charges := benzene.charges ++ [(7, 0)]
    radicals := benzene.radicals ++ [(7, false)]
    hydrogens := benzene.hydrogens ++ [(7, 1)]
    hybridizations := benzene.hybridizations ++ [(7, 3)]
    bonds :=
      [(1, [(2, 4), (6, 4), (7, 3)]), (2, [(1, 4), (3, 4)]), (3, [(2, 4), (4, 4)]),
       (4, [(3, 4), (5, 4)]), (5, [(4, 4), (6, 4)]), (6, [(5, 4), (1, 4)]),
       (7, [(1, 3)])]
    sssr := [[1, 2, 3, 4, 5, 6]] }

/-- Ethane: two single-bonded carbons, no aromatic bonds anywhere. -/
def ethane : Molecule :=
  { atoms := [(1, 6), (2, 6)]
    charges := [(1, 0), (2, 0)]
    radicals := [(1, false), (2, false)]
    hydrogens := [(1, 3), (2, 3)]
    hybridizations := [(1, 1), (2, 1)]
    bonds := [(1, [(2, 1)]), (2, [(1, 1)])]
    sssr := [] }

/-- Thiopyrylium: an aromatic six-ring with one S⁺ (atom 1, charge +1, no
radical) and five carbons — the S/Se/Te classifier case the code accepts
without classifying. -/
def thiopyrylium : Molecule :=
  { atoms := [(1, 16), (2, 6), (3, 6), (4, 6), (5, 6), (6, 6)]
    charges := [(1, 1), (2, 0), (3, 0), (4, 0), (5, 0), (6, 0)]
    radicals := benzene.radicals
    hydrogens := [(1, 0), (2, 1), (3, 1), (4, 1), (5, 1), (6, 1)]
    hybridizations := benzene.hybridizations
    bonds := benzene.bonds
    sssr := [[1, 2, 3, 4, 5, 6]] }

/-- 1,4-diazinium: an aromatic six-ring with N⁺ at positions 1 and 4 (both
classified pyrole-like) and four carbons.  It has three Kekulé forms — two
with both nitrogens double-bonded and one with both as lone-pair donors —
which makes the branch-exploration order observable. -/
def diazinium : Molecule :=
  { atoms := [(1, 7), (2, 6), (3, 6), (4, 7), (5, 6), (6, 6)]
    charges := [(1, 1), (2, 0), (3, 0), (4, 1), (5, 0), (6, 0)]
    radicals := benzene.radicals
    hydrogens := [(1, 1), (2, 1), (3, 1), (4, 1), (5, 1), (6, 1)]
    hybridizations := benzene.hybridizations
    bonds := benzene.bonds
    sssr := [[1, 2, 3, 4, 5, 6]] }

/-- 1,2-naphthoquinone: ring A = 1-2-3-4-5-6 with exocyclic C=O at atoms 1
(oxygen 11) and 2 (oxygen 12), fused along edge 4-5 to the benzo ring
B = 4-10-9-8-7-5.  Every ring atom is sp2, so both rings enter the `thiele`
candidate skeleton, atoms 1 and 2 are quinones, and after their removal ring
B is an intact cycle (every atom of ring B keeps degree ≥ 2). -/
def naphthoquinone : Molecule :=
  { atoms :=
      [(1, 6), (2, 6), (3, 6), (4, 6), (5, 6), (6, 6), (7, 6), (8, 6), (9, 6),
       (10, 6), (11, 8), (12, 8)]
    charges :=
      [(1, 0), (2, 0), (3, 0), (4, 0), (5, 0), (6, 0), (7, 0), (8, 0), (9, 0),
       (10, 0), (11, 0), (12, 0)]
    radicals :=
      [(1, false), (2, false), (3, false), (4, false), (5, false), (6, false),
       (7, false), (8, false), (9, false), (10, false), (11, false), (12, false)]
    hydrogens :=
      [(1, 0), (2, 0), (3, 1), (4, 0), (5, 0), (6, 1), (7, 1), (8, 1), (9, 1),
       (10, 1), (11, 0), (12, 0)]
    hybridizations :=
      [(1, 2), (2, 2), (3, 2), (4, 2), (5, 2), (6, 2), (7, 2), (8, 2), (9, 2),
       (10, 2), (11, 2), (12, 2)]
    bonds :=
      [(1, [(2, 1), (6, 1), (11, 2)]), (2, [(1, 1), (3, 1), (12, 2)]),
       (3, [(2, 1), (4, 2)]), (4, [(3, 2), (5, 1), (10, 1)]),
       (5, [(4, 1), (6, 2), (7, 1)]), (6, [(5, 2), (1, 1)]),
       (7, [(5, 1), (8, 2)]), (8, [(7, 2), (9, 1)]), (9, [(8, 1), (10, 2)]),
       (10, [(9, 2), (4, 1)]), (11, [(1, 2)]), (12, [(2, 2)])]
    sssr := [[1, 2, 3, 4, 5, 6], [4, 10, 9, 8, 7, 5]] }

/-- A benzene-like molecule on six arbitrary atom ids `a … f`: an aromatic
6-membered all-carbon ring, all six ring bonds of aromatic order 4.  Any such
molecule is of this form for its cyclic sequence of atom ids (up to the
incidental dict-iteration orders, which the ids here also range over). -/
def benzeneOf (a b c d e f : Nat) : Molecule :=
  { atoms := [(a, 6), (b, 6), (c, 6), (d, 6), (e, 6), (f, 6)]
    charges := [(a, 0), (b, 0), (c, 0), (d, 0), (e, 0), (f, 0)]
    radicals := [(a, false), (b, false), (c, false), (d, false), (e, false), (f, false)]
    hydrogens := [(a, 1), (b, 1), (c, 1), (d, 1), (e, 1), (f, 1)]
    hybridizations := [(a, 4), (b, 4), (c, 4), (d, 4), (e, 4), (f, 4)]
    bonds :=
      [(a, [(b, 4), (f, 4)]), (b, [(a, 4), (c, 4)]), (c, [(b, 4), (d, 4)]),
       (d, [(c, 4), (e, 4)]), (e, [(d, 4), (f, 4)]), (f, [(e, 4), (a, 4)])]
    sssr := [[a, b, c, d, e, f]] }

/-- The canonical Kekulé form of `benzeneOf a b c d e f`: the form `kekule()`
itself produces from it (orders 2,1,2,1,2,1 around the ring), sp2 marks. -/
def benzeneKOf (a b c d e f : Nat) : Molecule :=
  { atoms := (benzeneOf a b c d e f).atoms
    charges := (benzeneOf a b c d e f).charges
    radicals := (benzeneOf a b c d e f).radicals
    hydrogens := (benzeneOf a b c d e f).hydrogens
    hybridizations := [(a, 2), (b, 2), (c, 2), (d, 2), (e, 2), (f, 2)]
    bonds :=
      [(a, [(b, 2), (f, 1)]), (b, [(a, 2), (c, 1)]), (c, [(b, 1), (d, 2)]),
       (d, [(c, 2), (e, 1)]), (e, [(d, 1), (f, 2)]), (f, [(e, 2), (a, 1)])]
    sssr := [[a, b, c, d, e, f]] }

/-- The other Kekulé phase of `benzeneOf a b c d e f`: the second form
`enumerate_kekule()` yields (orders 1,2,1,2,1,2 around the ring). -/
def benzeneKAltOf (a b c d e f : Nat) : Molecule :=
  { atoms := (benzeneOf a b c d e f).atoms
    charges := (benzeneOf a b c d e f).charges
    radicals := (benzeneOf a b c d e f).radicals
    hydrogens := (benzeneOf a b c d e f).hydrogens
    hybridizations := [(a, 2), (b, 2), (c, 2), (d, 2), (e, 2), (f, 2)]
    bonds :=
      [(a, [(b, 1), (f, 2)]), (b, [(a, 1), (c, 2)]), (c, [(b, 2), (d, 1)]),
       (d, [(c, 1), (e, 2)]), (e, [(d, 2), (f, 1)]), (f, [(e, 1), (a, 2)])]
    sssr := [[a, b, c, d, e, f]] }

/-- The consecutive edge pairs of a ring, the closing edge last. -/
def cyclePairs : List Nat → List (Nat × Nat)
  | [] => []
  | x :: t => (x :: t).zip (t ++ [x])

def bondOrder (M : Molecule) (n m : Nat) : Nat := agetD (agetD M.bonds n []) m 0

/-- The bond orders around a ring, in ring order (closing edge last). -/
def ringOrders (M : Molecule) (ring : List Nat) : List Nat :=
  (cyclePairs ring).map (fun p => bondOrder M p.1 p.2)

/-! ## Symbolic evaluation of the benzene family -/

set_option maxHeartbeats 3000000 in
/-- `__prepare_rings` on a benzene-like ring with arbitrary distinct atom ids:
the skeleton is the 6-cycle, no pyrole-like and no double-bonded atoms. -/
theorem benzeneOf_prepare (a b c d e f : Nat)
    (hab : a ≠ b) (hac : a ≠ c) (had : a ≠ d) (hae : a ≠ e) (haf : a ≠ f)
    (hbc : b ≠ c) (hbd : b ≠ d) (hbe : b ≠ e) (hbf : b ≠ f)
    (hcd : c ≠ d) (hce : c ≠ e) (hcf : c ≠ f)
    (hde : d ≠ e) (hdf : d ≠ f) (hef : e ≠ f) :
    prepareRings (benzeneOf a b c d e f) =
      .ok ([(a, [b, f]), (b, [a, c]), (c, [b, d]), (d, [c, e]), (e, [d, f]), (f, [e, a])],
        [], []) := by
  simp [benzeneOf, prepareRings, ringsInit, ringsInitStep, skelAdd, aget?, aset, agetD, addOnce,
    prepAddRing, prepAddPath, prepAddEdge, skelGet, classifyAtom, Except.map,
    hab, hac, had, hae, haf, hbc, hbd, hbe, hbf, hcd, hce, hcf, hde, hdf, hef,
    hab.symm, hac.symm, had.symm, hae.symm, haf.symm, hbc.symm, hbd.symm, hbe.symm,
    hbf.symm, hcd.symm, hce.symm, hcf.symm, hde.symm, hdf.symm, hef.symm]

set_option maxHeartbeats 3000000 in
/-- The component search on the symbolic benzene skeleton (in the
breadth-first discovery order in which `__kekule_full` materializes the
component) yields exactly the two alternation phases, the one growing from
the last-listed start neighbour first. -/
theorem benzeneOf_component (a b c d e f : Nat)
    (hab : a ≠ b) (hac : a ≠ c) (had : a ≠ d) (hae : a ≠ e) (haf : a ≠ f)
    (hbc : b ≠ c) (hbd : b ≠ d) (hbe : b ≠ e) (hbf : b ≠ f)
    (hcd : c ≠ d) (hce : c ≠ e) (hcf : c ≠ f)
    (hde : d ≠ e) (hdf : d ≠ f) (hef : e ≠ f) (ha0 : a ≠ 0) :
    kekuleComponent
      [(a, [b, f]), (b, [a, c]), (f, [e, a]), (c, [b, d]), (e, [d, f]), (d, [c, e])]
      [] [] 100 =
      some (.ok [[(f, a, 1), (e, f, 2), (d, e, 1), (c, d, 2), (b, c, 1), (a, b, 2)],
                 [(b, a, 1), (c, b, 2), (d, c, 1), (e, d, 2), (f, e, 1), (a, f, 2)]]) := by
  simp [kekuleComponent, kekuleStart, kloop, skelGet, agetD, aget?, skelEdgeSum,
    classifyNbrs, truncState, closuresCommit, pyPop, removeFirst, List.find?,
    hab, hac, had, hae, haf, hbc, hbd, hbe, hbf, hcd, hce, hcf, hde, hdf, hef,
    hab.symm, hac.symm, had.symm, hae.symm, haf.symm, hbc.symm, hbd.symm, hbe.symm,
    hbf.symm, hcd.symm, hce.symm, hcf.symm, hde.symm, hdf.symm, hef.symm, ha0]

set_option maxHeartbeats 2000000 in
/-- `__kekule_full` on the symbolic benzene: one component, two solutions, the
1-2-1-2-1-2 phase ending the first one. -/
theorem benzeneOf_full (a b c d e f : Nat)
    (hab : a ≠ b) (hac : a ≠ c) (had : a ≠ d) (hae : a ≠ e) (haf : a ≠ f)
    (hbc : b ≠ c) (hbd : b ≠ d) (hbe : b ≠ e) (hbf : b ≠ f)
    (hcd : c ≠ d) (hce : c ≠ e) (hcf : c ≠ f)
    (hde : d ≠ e) (hdf : d ≠ f) (hef : e ≠ f) (ha0 : a ≠ 0) :
    kekuleFull (benzeneOf a b c d e f) 100 =
      .ok [[(f, a, 1), (e, f, 2), (d, e, 1), (c, d, 2), (b, c, 1), (a, b, 2)],
           [(b, a, 1), (c, b, 2), (d, c, 1), (e, d, 2), (f, e, 1), (a, f, 2)]] := by
  have hp := benzeneOf_prepare a b c d e f hab hac had hae haf hbc hbd hbe hbf
    hcd hce hcf hde hdf hef
  have hc := benzeneOf_component a b c d e f hab hac had hae haf hbc hbd hbe hbf
    hcd hce hcf hde hdf hef ha0
  rw [kekuleFull, hp]
  simp [splitComponents, bfsStep, skelGet, agetD, aget?, akeys, seqComps, cartProd, hc,
    hab, hac, had, hae, haf, hbc, hbd, hbe, hbf, hcd, hce, hcf, hde, hdf, hef,
    hab.symm, hac.symm, had.symm, hae.symm, haf.symm, hbc.symm, hbd.symm, hbe.symm,
    hbf.symm, hcd.symm, hce.symm, hcf.symm, hde.symm, hdf.symm, hef.symm]

/-! ## Claim theorems -/

set_option maxHeartbeats 2000000 in
/-- Patching the first yielded solution onto the symbolic benzene gives
exactly the canonical Kekulé form `benzeneKOf`. -/
theorem benzeneOf_patch_first (a b c d e f : Nat)
    (hab : a ≠ b) (hac : a ≠ c) (had : a ≠ d) (hae : a ≠ e) (haf : a ≠ f)
    (hbc : b ≠ c) (hbd : b ≠ d) (hbe : b ≠ e) (hbf : b ≠ f)
    (hcd : c ≠ d) (hce : c ≠ e) (hcf : c ≠ f)
    (hde : d ≠ e) (hdf : d ≠ f) (hef : e ≠ f) :
    kekulePatch (benzeneOf a b c d e f)
      [(f, a, 1), (e, f, 2), (d, e, 1), (c, d, 2), (b, c, 1), (a, b, 2)] =
      benzeneKOf a b c d e f := by
  have hB : patchBonds (benzeneOf a b c d e f).bonds
      [(f, a, 1), (e, f, 2), (d, e, 1), (c, d, 2), (b, c, 1), (a, b, 2)] =
      (benzeneKOf a b c d e f).bonds := by
    simp [patchBonds, setBond, setBondDir, benzeneOf, benzeneKOf,
      hab, hac, had, hae, haf, hbc, hbd, hbe, hbf, hcd, hce, hcf, hde, hdf, hef,
      hab.symm, hac.symm, had.symm, hae.symm, haf.symm, hbc.symm, hbd.symm, hbe.symm,
      hbf.symm, hcd.symm, hce.symm, hcf.symm, hde.symm, hdf.symm, hef.symm]
  have hT : patchTouched
      [(f, a, 1), (e, f, 2), (d, e, 1), (c, d, 2), (b, c, 1), (a, b, 2)] =
      [f, a, e, d, c, b] := by
    simp [patchTouched, addOnce,
      hab, hac, had, hae, haf, hbc, hbd, hbe, hbf, hcd, hce, hcf, hde, hdf, hef,
      hab.symm, hac.symm, had.symm, hae.symm, haf.symm, hbc.symm, hbd.symm, hbe.symm,
      hbf.symm, hcd.symm, hce.symm, hcf.symm, hde.symm, hdf.symm, hef.symm]
  rw [kekulePatch, hB, hT]
  simp [benzeneOf, benzeneKOf, aset, aget?, agetD, calcHybridization, calcImplicitH,
    elementValence,
    hab, hac, had, hae, haf, hbc, hbd, hbe, hbf, hcd, hce, hcf, hde, hdf, hef,
    hab.symm, hac.symm, had.symm, hae.symm, haf.symm, hbc.symm, hbd.symm, hbe.symm,
    hbf.symm, hcd.symm, hce.symm, hcf.symm, hde.symm, hdf.symm, hef.symm]

set_option maxHeartbeats 2000000 in
/-- Patching the second yielded solution onto the symbolic benzene gives the
other alternation phase `benzeneKAltOf`. -/
theorem benzeneOf_patch_second (a b c d e f : Nat)
    (hab : a ≠ b) (hac : a ≠ c) (had : a ≠ d) (hae : a ≠ e) (haf : a ≠ f)
    (hbc : b ≠ c) (hbd : b ≠ d) (hbe : b ≠ e) (hbf : b ≠ f)
    (hcd : c ≠ d) (hce : c ≠ e) (hcf : c ≠ f)
    (hde : d ≠ e) (hdf : d ≠ f) (hef : e ≠ f) :
    kekulePatch (benzeneOf a b c d e f)
      [(b, a, 1), (c, b, 2), (d, c, 1), (e, d, 2), (f, e, 1), (a, f, 2)] =
      benzeneKAltOf a b c d e f := by
  have hB : patchBonds (benzeneOf a b c d e f).bonds
      [(b, a, 1), (c, b, 2), (d, c, 1), (e, d, 2), (f, e, 1), (a, f, 2)] =
      (benzeneKAltOf a b c d e f).bonds := by
    simp [patchBonds, setBond, setBondDir, benzeneOf, benzeneKAltOf,
      hab, hac, had, hae, haf, hbc, hbd, hbe, hbf, hcd, hce, hcf, hde, hdf, hef,
      hab.symm, hac.symm, had.symm, hae.symm, haf.symm, hbc.symm, hbd.symm, hbe.symm,
      hbf.symm, hcd.symm, hce.symm, hcf.symm, hde.symm, hdf.symm, hef.symm]
  have hT : patchTouched
      [(b, a, 1), (c, b, 2), (d, c, 1), (e, d, 2), (f, e, 1), (a, f, 2)] =
      [b, a, c, d, e, f] := by
    simp [patchTouched, addOnce,
      hab, hac, had, hae, haf, hbc, hbd, hbe, hbf, hcd, hce, hcf, hde, hdf, hef,
      hab.symm, hac.symm, had.symm, hae.symm, haf.symm, hbc.symm, hbd.symm, hbe.symm,
      hbf.symm, hcd.symm, hce.symm, hcf.symm, hde.symm, hdf.symm, hef.symm]
  rw [kekulePatch, hB, hT]
  simp [benzeneOf, benzeneKAltOf, aset, aget?, agetD, calcHybridization, calcImplicitH,
    elementValence,
    hab, hac, had, hae, haf, hbc, hbd, hbe, hbf, hcd, hce, hcf, hde, hdf, hef,
    hab.symm, hac.symm, had.symm, hae.symm, haf.symm, hbc.symm, hbd.symm, hbe.symm,
    hbf.symm, hcd.symm, hce.symm, hcf.symm, hde.symm, hdf.symm, hef.symm]

/-- `kekule()` on the symbolic benzene applies the first solution and leaves
exactly the canonical Kekulé form `benzeneKOf`. -/
theorem benzeneOf_kekuleRun (a b c d e f : Nat)
    (hab : a ≠ b) (hac : a ≠ c) (had : a ≠ d) (hae : a ≠ e) (haf : a ≠ f)
    (hbc : b ≠ c) (hbd : b ≠ d) (hbe : b ≠ e) (hbf : b ≠ f)
    (hcd : c ≠ d) (hce : c ≠ e) (hcf : c ≠ f)
    (hde : d ≠ e) (hdf : d ≠ f) (hef : e ≠ f) (ha0 : a ≠ 0) :
    kekuleRun (benzeneOf a b c d e f) 100 = (benzeneKOf a b c d e f, .ok true) := by
  have hfull := benzeneOf_full a b c d e f hab hac had hae haf hbc hbd hbe hbf
    hcd hce hcf hde hdf hef ha0
  rw [kekuleRun, hfull]
  simp only [List.head?]
  rw [benzeneOf_patch_first a b c d e f hab hac had hae haf hbc hbd hbe hbf
    hcd hce hcf hde hdf hef]

set_option maxHeartbeats 1000000 in
/-- Claim C1: for every molecule consisting of an aromatic 6-membered
all-carbon ring (benzene-like: any six distinct positive atom ids, all six
ring bonds of aromatic order 4), `kekule()` returns true and afterwards the
six ring bond orders alternate single/double 1-2-1-2-1-2 around the ring. -/
theorem kekule_benzene_ring (a b c d e f : Nat)
    (hnd : [a, b, c, d, e, f].Nodup) (hnz : ∀ n ∈ [a, b, c, d, e, f], n ≠ 0) :
    (kekuleRun (benzeneOf a b c d e f) 100).2 = .ok true ∧
    ringOrders (kekuleRun (benzeneOf a b c d e f) 100).1 [a, b, c, d, e, f] =
      [2, 1, 2, 1, 2, 1] := by
  have ha0 : a ≠ 0 := hnz a (by simp)
  simp only [List.nodup_cons, List.mem_cons, List.mem_singleton, List.not_mem_nil,
    or_false, not_or, List.nodup_nil, and_true, not_false_iff] at hnd
  obtain ⟨⟨hab', hac', had', hae', haf'⟩, ⟨hbc', hbd', hbe', hbf'⟩, ⟨hcd', hce', hcf'⟩,
    ⟨hde', hdf'⟩, hef'⟩ := hnd
  have hab : a ≠ b := hab'
  have hac : a ≠ c := hac'
  have had : a ≠ d := had'
  have hae : a ≠ e := hae'
  have haf : a ≠ f := haf'
  have hbc : b ≠ c := hbc'
  have hbd : b ≠ d := hbd'
  have hbe : b ≠ e := hbe'
  have hbf : b ≠ f := hbf'
  have hcd : c ≠ d := hcd'
  have hce : c ≠ e := hce'
  have hcf : c ≠ f := hcf'
  have hde : d ≠ e := hde'
  have hdf : d ≠ f := hdf'
  have hef : e ≠ f := hef'
  rw [benzeneOf_kekuleRun a b c d e f hab hac had hae haf hbc hbd hbe hbf
    hcd hce hcf hde hdf hef ha0]
  refine ⟨rfl, ?_⟩
  simp [ringOrders, cyclePairs, bondOrder, benzeneKOf, benzeneOf, agetD, aget?,
    hab, hac, had, hae, haf, hbc, hbd, hbe, hbf, hcd, hce, hcf, hde, hdf, hef,
    hab.symm, hac.symm, had.symm, hae.symm, haf.symm, hbc.symm, hbd.symm, hbe.symm,
    hbf.symm, hcd.symm, hce.symm, hcf.symm, hde.symm, hdf.symm, hef.symm]

/-- Witness for C1 at the concrete benzene on atom ids 1-6. -/
theorem kekule_benzene_ring_witness :
    (kekuleRun (benzeneOf 1 2 3 4 5 6) 100).2 = .ok true ∧
    ringOrders (kekuleRun (benzeneOf 1 2 3 4 5 6) 100).1 [1, 2, 3, 4, 5, 6] =
      [2, 1, 2, 1, 2, 1] :=
  kekule_benzene_ring 1 2 3 4 5 6 (by decide) (by decide)

set_option maxHeartbeats 1000000 in
/-- Claim C6: for a molecule that is an isolated benzene ring (one 6-membered
all-carbon aromatic ring on any six distinct positive atom ids, no other
aromatic bonds), `enumerate_kekule()` yields exactly 2 distinct molecule
copies, the two alternation phases of the ring. -/
theorem enumerate_kekule_benzene (a b c d e f : Nat)
    (hnd : [a, b, c, d, e, f].Nodup) (hnz : ∀ n ∈ [a, b, c, d, e, f], n ≠ 0) :
    enumerateKekule (benzeneOf a b c d e f) 100 =
      .ok [benzeneKOf a b c d e f, benzeneKAltOf a b c d e f] ∧
    benzeneKOf a b c d e f ≠ benzeneKAltOf a b c d e f ∧
    ringOrders (benzeneKOf a b c d e f) [a, b, c, d, e, f] = [2, 1, 2, 1, 2, 1] ∧
    ringOrders (benzeneKAltOf a b c d e f) [a, b, c, d, e, f] = [1, 2, 1, 2, 1, 2] := by
  have ha0 : a ≠ 0 := hnz a (by simp)
  simp only [List.nodup_cons, List.mem_cons, List.mem_singleton, List.not_mem_nil,
    or_false, not_or, List.nodup_nil, and_true, not_false_iff] at hnd
  obtain ⟨⟨hab', hac', had', hae', haf'⟩, ⟨hbc', hbd', hbe', hbf'⟩, ⟨hcd', hce', hcf'⟩,
    ⟨hde', hdf'⟩, hef'⟩ := hnd
  have hab : a ≠ b := hab'
  have hac : a ≠ c := hac'
  have had : a ≠ d := had'
  have hae : a ≠ e := hae'
  have haf : a ≠ f := haf'
  have hbc : b ≠ c := hbc'
  have hbd : b ≠ d := hbd'
  have hbe : b ≠ e := hbe'
  have hbf : b ≠ f := hbf'
  have hcd : c ≠ d := hcd'
  have hce : c ≠ e := hce'
  have hcf : c ≠ f := hcf'
  have hde : d ≠ e := hde'
  have hdf : d ≠ f := hdf'
  have hef : e ≠ f := hef'
  have hfull := benzeneOf_full a b c d e f hab hac had hae haf hbc hbd hbe hbf
    hcd hce hcf hde hdf hef ha0
  have hp1 := benzeneOf_patch_first a b c d e f hab hac had hae haf hbc hbd hbe hbf
    hcd hce hcf hde hdf hef
  have hp2 := benzeneOf_patch_second a b c d e f hab hac had hae haf hbc hbd hbe hbf
    hcd hce hcf hde hdf hef
  refine ⟨?_, ?_, ?_, ?_⟩
  · rw [enumerateKekule, hfull]
    simp only [List.map, hp1, hp2]
  · intro h
    have hb := congrArg Molecule.bonds h
    simp [benzeneKOf, benzeneKAltOf] at hb
  · simp [ringOrders, cyclePairs, bondOrder, benzeneKOf, benzeneOf, agetD, aget?,
      hab, hac, had, hae, haf, hbc, hbd, hbe, hbf, hcd, hce, hcf, hde, hdf, hef,
      hab.symm, hac.symm, had.symm, hae.symm, haf.symm, hbc.symm, hbd.symm, hbe.symm,
      hbf.symm, hcd.symm, hce.symm, hcf.symm, hde.symm, hdf.symm, hef.symm]
  · simp [ringOrders, cyclePairs, bondOrder, benzeneKAltOf, benzeneOf, agetD, aget?,
      hab, hac, had, hae, haf, hbc, hbd, hbe, hbf, hcd, hce, hcf, hde, hdf, hef,
      hab.symm, hac.symm, had.symm, hae.symm, haf.symm, hbc.symm, hbd.symm, hbe.symm,
      hbf.symm, hcd.symm, hce.symm, hcf.symm, hde.symm, hdf.symm, hef.symm]

/-- Witness for C6 at the concrete benzene on atom ids 1-6. -/
theorem enumerate_kekule_benzene_witness :
    enumerateKekule (benzeneOf 1 2 3 4 5 6) 100 =
      .ok [benzeneKOf 1 2 3 4 5 6, benzeneKAltOf 1 2 3 4 5 6] ∧
    benzeneKOf 1 2 3 4 5 6 ≠ benzeneKAltOf 1 2 3 4 5 6 ∧
    ringOrders (benzeneKOf 1 2 3 4 5 6) [1, 2, 3, 4, 5, 6] = [2, 1, 2, 1, 2, 1] ∧
    ringOrders (benzeneKAltOf 1 2 3 4 5 6) [1, 2, 3, 4, 5, 6] = [1, 2, 1, 2, 1, 2] :=
  enumerate_kekule_benzene 1 2 3 4 5 6 (by decide) (by decide)

set_option maxHeartbeats 3000000 in
/-- `thiele()` on the canonical Kekulé benzene marks the ring aromatic and
returns exactly the aromatic-form benzene. -/
theorem benzeneKOf_thiele (a b c d e f : Nat)
    (hab : a ≠ b) (hac : a ≠ c) (had : a ≠ d) (hae : a ≠ e) (haf : a ≠ f)
    (hbc : b ≠ c) (hbd : b ≠ d) (hbe : b ≠ e) (hbf : b ≠ f)
    (hcd : c ≠ d) (hce : c ≠ e) (hcf : c ≠ f)
    (hde : d ≠ e) (hdf : d ≠ f) (hef : e ≠ f) :
    thieleRun (benzeneKOf a b c d e f) = some (benzeneOf a b c d e f, true) := by
  have hsk : thieleSkeleton (benzeneKOf a b c d e f) =
      [(a, [f, b]), (f, [a, e]), (b, [a, c]), (c, [b, d]), (d, [c, e]), (e, [d, f])] := by
    simp [thieleSkeleton, benzeneKOf, benzeneOf, thieleAddPath, thieleAddEdge, skelAdd,
      skelGet, aget?, aset, agetD,
      hab, hac, had, hae, haf, hbc, hbd, hbe, hbf, hcd, hce, hcf, hde, hdf, hef,
      hab.symm, hac.symm, had.symm, hae.symm, haf.symm, hbc.symm, hbd.symm, hbe.symm,
      hbf.symm, hcd.symm, hce.symm, hcf.symm, hde.symm, hdf.symm, hef.symm]
  have hss : modelSSSR
      [(a, [f, b]), (f, [a, e]), (b, [a, c]), (c, [b, d]), (d, [c, e]), (e, [d, f])] 1 =
      [[a, b, c, d, e, f]] := by
    simp [modelSSSR, bfsParents, tracePath, skelGet, aget?, agetD, sameCycle, insByLen,
      hab, hac, had, hae, haf, hbc, hbd, hbe, hbf, hcd, hce, hcf, hde, hdf, hef,
      hab.symm, hac.symm, had.symm, hae.symm, haf.symm, hbc.symm, hbd.symm, hbe.symm,
      hbf.symm, hcd.symm, hce.symm, hcf.symm, hde.symm, hdf.symm, hef.symm]
  rw [thieleRun, hsk]
  simp [thieleQuinones, benzeneKOf, benzeneOf, akeys, agetD, aget?, aset, skelGet,
    skelEdgeSum, splitComponents, bfsStep, hss, setRingAromatic, setRingAromatic.go,
    setBond, setBondDir, addOnce, calcHybridization,
    hab, hac, had, hae, haf, hbc, hbd, hbe, hbf, hcd, hce, hcf, hde, hdf, hef,
    hab.symm, hac.symm, had.symm, hae.symm, haf.symm, hbc.symm, hbd.symm, hbe.symm,
    hbf.symm, hcd.symm, hce.symm, hcf.symm, hde.symm, hdf.symm, hef.symm]

/-- Claim C4 as amended: for every molecule of the benzene family that
already is the valid, canonical Kekulé form (the form `kekule()` itself
produces), running `thiele()` followed by `kekule()` yields ring bond orders
identical, bond-for-bond, to the orders the molecule had before `thiele()`
was called — indeed the whole molecule is restored.  (Unrestricted the claim
fails: see `thiele_kekule_roundtrip_counterexample`.) -/
theorem thiele_kekule_roundtrip (a b c d e f : Nat)
    (hnd : [a, b, c, d, e, f].Nodup) (hnz : ∀ n ∈ [a, b, c, d, e, f], n ≠ 0) :
    (thieleRun (benzeneKOf a b c d e f)).map
        (fun p => (kekuleRun p.1 100).1) = some (benzeneKOf a b c d e f) ∧
    (thieleRun (benzeneKOf a b c d e f)).map
        (fun p => ringOrders (kekuleRun p.1 100).1 [a, b, c, d, e, f]) =
      some (ringOrders (benzeneKOf a b c d e f) [a, b, c, d, e, f]) := by
  have ha0 : a ≠ 0 := hnz a (by simp)
  simp only [List.nodup_cons, List.mem_cons, List.mem_singleton, List.not_mem_nil,
    or_false, not_or, List.nodup_nil, and_true, not_false_iff] at hnd
  obtain ⟨⟨hab', hac', had', hae', haf'⟩, ⟨hbc', hbd', hbe', hbf'⟩, ⟨hcd', hce', hcf'⟩,
    ⟨hde', hdf'⟩, hef'⟩ := hnd
  have hab : a ≠ b := hab'
  have hac : a ≠ c := hac'
  have had : a ≠ d := had'
  have hae : a ≠ e := hae'
  have haf : a ≠ f := haf'
  have hbc : b ≠ c := hbc'
  have hbd : b ≠ d := hbd'
  have hbe : b ≠ e := hbe'
  have hbf : b ≠ f := hbf'
  have hcd : c ≠ d := hcd'
  have hce : c ≠ e := hce'
  have hcf : c ≠ f := hcf'
  have hde : d ≠ e := hde'
  have hdf : d ≠ f := hdf'
  have hef : e ≠ f := hef'
  rw [benzeneKOf_thiele a b c d e f hab hac had hae haf hbc hbd hbe hbf
    hcd hce hcf hde hdf hef]
  simp only [Option.map]
  rw [benzeneOf_kekuleRun a b c d e f hab hac had hae haf hbc hbd hbe hbf
    hcd hce hcf hde hdf hef ha0]
  exact ⟨rfl, rfl⟩

/-- Witness for C4 at the concrete benzene on atom ids 1-6. -/
theorem thiele_kekule_roundtrip_witness :
    (thieleRun (benzeneKOf 1 2 3 4 5 6)).map
        (fun p => (kekuleRun p.1 100).1) = some (benzeneKOf 1 2 3 4 5 6) ∧
    (thieleRun (benzeneKOf 1 2 3 4 5 6)).map
        (fun p => ringOrders (kekuleRun p.1 100).1 [1, 2, 3, 4, 5, 6]) =
      some (ringOrders (benzeneKOf 1 2 3 4 5 6) [1, 2, 3, 4, 5, 6]) :=
  thiele_kekule_roundtrip 1 2 3 4 5 6 (by decide) (by decide)

/-- Benzothiophene in aromatic form: the thiophene ring 1(S)-2-3-4-5 fused to
the benzo ring 4-6-7-8-9-5 along the 4-5 bond, all nine ring bonds of order 4
(atom 6 listed first in the bond dict). -/
def benzothiophene : Molecule :=
  { atoms := [(1, 16), (2, 6), (3, 6), (4, 6), (5, 6), (6, 6), (7, 6), (8, 6), (9, 6)]
    charges := [(1, 0), (2, 0), (3, 0), (4, 0), (5, 0), (6, 0), (7, 0), (8, 0), (9, 0)]
    radicals := [(1, false), (2, false), (3, false), (4, false), (5, false),
      (6, false), (7, false), (8, false), (9, false)]
    hydrogens := [(1, 0), (2, 1), (3, 1), (4, 0), (5, 0), (6, 1), (7, 1), (8, 1), (9, 1)]
    hybridizations := [(1, 4), (2, 4), (3, 4), (4, 4), (5, 4), (6, 4), (7, 4), (8, 4), (9, 4)]
    bonds :=
      [(6, [(4, 4), (7, 4)]), (1, [(2, 4), (5, 4)]), (2, [(1, 4), (3, 4)]),
       (3, [(2, 4), (4, 4)]), (4, [(3, 4), (5, 4), (6, 4)]), (5, [(4, 4), (1, 4), (9, 4)]),
       (7, [(6, 4), (8, 4)]), (8, [(7, 4), (9, 4)]), (9, [(8, 4), (5, 4)])]
    sssr := [[1, 2, 3, 4, 5], [4, 6, 7, 8, 9, 5]] }

set_option maxHeartbeats 2000000 in
/-- Counterexample to claim C4: the Kekulé form of benzothiophene that
`kekule()` itself produces (benzo ring orders 1,2,1,2,1,2 around
4-6-7-8-9-5, thiophene double on 2-3, fusion bond 4-5 single) is a valid,
canonical Kekulé form, yet `thiele()` followed by `kekule()` does **not**
restore its ring bond orders: `thiele()` deliberately keeps the
sulphur-containing ring in Kekulé form and re-aromatizes only the benzo
ring, and the second kekulization — now searching the six-membered skeleton
alone, from a different start atom — picks the opposite alternation phase
2,1,2,1,2,1. -/
theorem thiele_kekule_roundtrip_counterexample :
    (kekuleRun benzothiophene 200).2 = .ok true ∧
    ringOrders (kekuleRun benzothiophene 200).1 [4, 6, 7, 8, 9, 5] =
      [1, 2, 1, 2, 1, 2] ∧
    (thieleRun (kekuleRun benzothiophene 200).1).map (·.2) = some true ∧
    (thieleRun (kekuleRun benzothiophene 200).1).map
        (fun p => (kekuleRun p.1 200).2) = some (.ok true) ∧
    (thieleRun (kekuleRun benzothiophene 200).1).map
        (fun p => ringOrders (kekuleRun p.1 200).1 [4, 6, 7, 8, 9, 5]) =
      some [2, 1, 2, 1, 2, 1] := by
  decide

/-! ## Molecules without aromatic bonds (C7, C10) and error paths (C3) -/

/-- The molecule contains no aromatic-order (order-4) bond. -/
def noAromaticBonds (M : Molecule) : Prop :=
  ∀ p ∈ M.bonds, ∀ q ∈ p.2, q.2 ≠ 4

instance (M : Molecule) : Decidable (noAromaticBonds M) := by
  unfold noAromaticBonds; infer_instance

theorem ringsInitStep_skel (n : Nat) (acc : Skeleton × List Nat × List Nat)
    (q : Nat × Nat) (h : q.2 ≠ 4) : (ringsInitStep n acc q).1 = acc.1 := by
  unfold ringsInitStep
  split
  · exact absurd (by assumption) h
  · split
    · rfl
    · split
      · rfl
      · rfl

theorem ringsInit_inner_skel (n : Nat) (l : AList Nat)
    (h : ∀ q ∈ l, q.2 ≠ 4) (acc : Skeleton × List Nat × List Nat) :
    (l.foldl (ringsInitStep n) acc).1 = acc.1 := by
  induction l generalizing acc with
  | nil => rfl
  | cons q t ih =>
    rw [List.foldl_cons, ih (fun x hx => h x (List.mem_cons_of_mem q hx)),
      ringsInitStep_skel n acc q (h q (List.mem_cons_self q t))]

theorem ringsInit_skel_nil (bonds : AList (AList Nat))
    (h : ∀ p ∈ bonds, ∀ q ∈ p.2, q.2 ≠ 4) : (ringsInit bonds).1 = [] := by
  unfold ringsInit
  have : ∀ acc : Skeleton × List Nat × List Nat,
      (bonds.foldl (fun acc p => p.2.foldl (ringsInitStep p.1) acc) acc).1 = acc.1 := by
    induction bonds with
    | nil => intro acc; rfl
    | cons p t ih =>
      intro acc
      rw [List.foldl_cons, ih (fun x hx => h x (List.mem_cons_of_mem p hx)),
        ringsInit_inner_skel p.1 p.2 (h p (List.mem_cons_self p t)) acc]
  exact this ([], [], [])

/-- Without aromatic bonds, `__prepare_rings` returns the empty skeleton and
empty role sets at its early exit. -/
theorem prepareRings_no_aromatic (M : Molecule) (h : noAromaticBonds M) :
    prepareRings M = .ok ([], [], []) := by
  have hs := ringsInit_skel_nil M.bonds h
  simp [prepareRings, hs]

/-- Without aromatic bonds, the full enumeration is the single empty
assignment (the Cartesian product of zero components). -/
theorem kekuleFull_no_aromatic (M : Molecule) (fuel : Nat) (h : noAromaticBonds M) :
    kekuleFull M fuel = .ok [[]] := by
  rw [kekuleFull, prepareRings_no_aromatic M h]
  simp [splitComponents, akeys, seqComps, cartProd]

/-- Claim C7: for every molecule containing no aromatic-order (order-4)
bonds, `kekule()` returns false and the molecule — in particular every bond
order — is unchanged after the call, whatever the fuel. -/
theorem kekule_no_aromatic (M : Molecule) (fuel : Nat) (h : noAromaticBonds M) :
    kekuleRun M fuel = (M, .ok false) := by
  rw [kekuleRun, kekuleFull_no_aromatic M fuel h]
  rfl

/-- Witness for C7 at ethane. -/
theorem kekule_no_aromatic_witness :
    noAromaticBonds ethane ∧ kekuleRun ethane 100 = (ethane, .ok false) :=
  ⟨by decide, kekule_no_aromatic ethane 100 (by decide)⟩

/-- Claim C10: for every molecule containing no aromatic-order bonds,
`enumerate_kekule()` yields exactly one molecule copy, with bond orders (and
all other state) identical to the original: the search produces a single
empty assignment, not an empty sequence of solutions. -/
theorem enumerate_no_aromatic (M : Molecule) (fuel : Nat) (h : noAromaticBonds M) :
    enumerateKekule M fuel = .ok [M] := by
  rw [enumerateKekule, kekuleFull_no_aromatic M fuel h]
  rfl

/-- Witness for C10 at ethane. -/
theorem enumerate_no_aromatic_witness :
    noAromaticBonds ethane ∧ enumerateKekule ethane 100 = .ok [ethane] :=
  ⟨by decide, enumerate_no_aromatic ethane 100 (by decide)⟩

/-- Claim C3: whenever `kekule()` raises the invalid-aromatic-ring error (for
any cause), the molecule is left completely unchanged — no bond order,
hybridization mark or implicit-hydrogen count is mutated on any exit path that
raises.  (`__kekule_patch`, the only mutator, runs only after a first solution
has been produced.) -/
theorem kekule_error_unchanged (M : Molecule) (fuel : Nat) (e : String)
    (h : (kekuleRun M fuel).2 = .err e) : (kekuleRun M fuel).1 = M := by
  unfold kekuleRun at h ⊢
  cases hk : kekuleFull M fuel with
  | ok sols =>
    rw [hk] at h
    cases hh : sols.head? with
    | none => simp [hh]
    | some p =>
      cases p with
      | nil => simp [hh]
      | cons t ts => simp [hh] at h
  | err eMsg => rfl
  | stuck => simp [hk] at h

/-- Witness for C3: a ring atom with an exocyclic triple bond raises and the
molecule is untouched. -/
theorem kekule_error_unchanged_witness :
    (kekuleRun benzyne 100).2 = .err "triple bonds connected to rings" ∧
    (kekuleRun benzyne 100).1 = benzyne :=
  ⟨by decide, kekule_error_unchanged benzyne 100 "triple bonds connected to rings"
    (by decide)⟩

/-! ## The quinone-trimming loop of `thiele` (C5) -/

/-- Claim C5 (code bug): on 1,2-naphthoquinone the quinone atoms are 1 and 2,
and after their removal the benzo ring B = {4, 5, 7, 8, 9, 10} is an intact
cycle; the spec's trimming (iterated removal of degree-1 atoms only,
`specTrimLoop`) leaves exactly that cycle, every atom at degree 2.  The code's
loop (`thieleTrimLoop`), which pops the degree-1 atom **and its neighbour**,
instead erodes ring B completely and empties the skeleton, so `thiele()`
returns false and aromatizes nothing. -/
theorem thiele_trim_pair_removal :
    thieleQuinones naphthoquinone (thieleSkeleton naphthoquinone) = [1, 2] ∧
    specTrimLoop ((thieleSkeleton naphthoquinone).length + 1)
      ((thieleQuinones naphthoquinone (thieleSkeleton naphthoquinone)).foldl
        removeAtomEdges (thieleSkeleton naphthoquinone)) =
      some [(4, [5, 10]), (5, [4, 7]), (10, [4, 9]), (9, [10, 8]), (8, [9, 7]),
        (7, [8, 5])] ∧
    thieleTrimLoop ((thieleSkeleton naphthoquinone).length + 1)
      ((thieleQuinones naphthoquinone (thieleSkeleton naphthoquinone)).foldl
        removeAtomEdges (thieleSkeleton naphthoquinone)) = some [] ∧
    thieleRun naphthoquinone = some (naphthoquinone, false) := by
  decide

/-! ## The S/Se/Te classifier branch (C8) -/

/-- Counterexample to claim C8: a non-radical S atom of charge +1 with two
bonds (thiopyrylium) does **not** raise the invalid-aromatic-ring error — it
is accepted without any classification (and the whole molecule kekulizes). -/
theorem chalcogen_cation_accepted :
    classifyAtom 16 1 false 2 0 false = .ok .plain ∧
    prepareRings thiopyrylium =
      .ok ([(1, [2, 6]), (2, [1, 3]), (3, [2, 4]), (4, [3, 5]), (5, [4, 6]),
        (6, [5, 1])], [], []) ∧
    (kekuleRun thiopyrylium 100).2 = .ok true := by
  decide

/-- A benzene-like 6-ring in aromatic form whose atom 1 is a chalcogen of the
given element, charge and radical state (thiopyrylium-style input); atoms 2-6
are plain carbons. -/
def chalcogenRing (an : Nat) (ac : Int) (rad : Bool) : Molecule :=
  { atoms := [(1, an), (2, 6), (3, 6), (4, 6), (5, 6), (6, 6)]
    charges := [(1, ac), (2, 0), (3, 0), (4, 0), (5, 0), (6, 0)]
    radicals := [(1, rad), (2, false), (3, false), (4, false), (5, false), (6, false)]
    hydrogens := [(1, 0), (2, 1), (3, 1), (4, 1), (5, 1), (6, 1)]
    hybridizations := [(1, 4), (2, 4), (3, 4), (4, 4), (5, 4), (6, 4)]
    bonds := [(1, [(2, 4), (6, 4)]), (2, [(1, 4), (3, 4)]), (3, [(2, 4), (4, 4)]),
      (4, [(3, 4), (5, 4)]), (5, [(4, 4), (6, 4)]), (6, [(5, 4), (1, 4)])]
    sssr := [[1, 2, 3, 4, 5, 6]] }

set_option maxHeartbeats 3000000 in
/-- `__prepare_rings` on the chalcogen ring is decided entirely by the
classification of atom 1: its error aborts the preparation, `.dbl` puts the
atom into `double_bonded`, `.pyr` into `pyroles`, and `.plain` (the accepted
unclassified case) into neither. -/
theorem chalcogenRing_prepare (an : Nat) (ac : Int) (rad : Bool)
    (res : Except String Role)
    (hres : classifyAtom an ac rad 2 0 false = res) :
    prepareRings (chalcogenRing an ac rad) =
      match res with
      | .error e => .error e
      | .ok .dbl => .ok ([(1, [2, 6]), (2, [1, 3]), (3, [2, 4]), (4, [3, 5]),
          (5, [4, 6]), (6, [5, 1])], [], [1])
      | .ok .pyr => .ok ([(1, [2, 6]), (2, [1, 3]), (3, [2, 4]), (4, [3, 5]),
          (5, [4, 6]), (6, [5, 1])], [1], [])
      | .ok .plain => .ok ([(1, [2, 6]), (2, [1, 3]), (3, [2, 4]), (4, [3, 5]),
          (5, [4, 6]), (6, [5, 1])], [], []) := by
  have hC : classifyAtom 6 0 false 2 1 false = .ok .plain := by decide
  rcases res with e | r
  · simp [prepareRings, chalcogenRing, ringsInit, ringsInitStep,
      prepAddRing, prepAddPath, prepAddEdge, skelAdd, skelGet, agetD, aget?, aset,
      akeys, addOnce, Except.map, hres, hC]
  · rcases r <;>
      simp [prepareRings, chalcogenRing, ringsInit, ringsInitStep,
        prepAddRing, prepAddPath, prepAddEdge, skelAdd, skelGet, agetD, aget?, aset,
        akeys, addOnce, Except.map, hres, hC]

/-- The classifier-level decision table of the S/Se/Te branch (acceptance,
double-bonded classification, accepted-unclassified), for any bond and
hydrogen count. -/
theorem classify_chalcogen_aux (an : Nat) (han : an = 16 ∨ an = 34 ∨ an = 52)
    (ac : Int) (rad : Bool) (ab ah : Nat) :
    ((∃ r, classifyAtom an ac rad ab ah false = .ok r) ↔
      ab = 2 ∧ (ac = 0 ∧ rad = false ∨ ac = 1)) ∧
    (classifyAtom an ac rad ab ah false = .ok .dbl ↔
      ab = 2 ∧ (ac = 0 ∧ rad = false ∨ ac = 1 ∧ rad = true)) ∧
    (classifyAtom an ac rad ab ah false = .ok .plain ↔
      ab = 2 ∧ ac = 1 ∧ rad = false) := by
  rcases han with rfl | rfl | rfl <;>
    cases rad <;>
    unfold classifyAtom <;>
    by_cases h2 : ab = 2 <;>
    by_cases hc0 : ac = 0 <;>
    by_cases hc1 : ac = 1 <;>
    simp_all

/-- Claim C8 as amended: for an S/Se/Te skeleton atom not already
exocyclic-double-bonded, the classifier accepts it exactly when its total
bond count is 2 and it is either neutral non-radical or of charge +1; it
classifies it double-bonded exactly when neutral non-radical or a charge +1
radical; the charge +1 non-radical case is accepted *unclassified*; every
other combination raises.  Accordingly, on a benzene-like ring whose atom 1
is such a chalcogen, `__prepare_rings` succeeds exactly when that atom is
neutral non-radical or of charge +1; the atom lands in `double_bonded`
exactly when neutral non-radical or a charge +1 radical, and in the charge
+1 non-radical case the ring is accepted with the atom in neither role
set. -/
theorem classify_chalcogen_table (an : Nat) (han : an = 16 ∨ an = 34 ∨ an = 52)
    (ac : Int) (rad : Bool) (ab ah : Nat) :
    ((∃ r, classifyAtom an ac rad ab ah false = .ok r) ↔
      ab = 2 ∧ (ac = 0 ∧ rad = false ∨ ac = 1)) ∧
    (classifyAtom an ac rad ab ah false = .ok .dbl ↔
      ab = 2 ∧ (ac = 0 ∧ rad = false ∨ ac = 1 ∧ rad = true)) ∧
    (classifyAtom an ac rad ab ah false = .ok .plain ↔
      ab = 2 ∧ ac = 1 ∧ rad = false) ∧
    ((∃ out, prepareRings (chalcogenRing an ac rad) = .ok out) ↔
      (ac = 0 ∧ rad = false ∨ ac = 1)) ∧
    (prepareRings (chalcogenRing an ac rad) =
        .ok ([(1, [2, 6]), (2, [1, 3]), (3, [2, 4]), (4, [3, 5]), (5, [4, 6]),
          (6, [5, 1])], [], [1]) ↔ (ac = 0 ∧ rad = false ∨ ac = 1 ∧ rad = true)) ∧
    (prepareRings (chalcogenRing an ac rad) =
        .ok ([(1, [2, 6]), (2, [1, 3]), (3, [2, 4]), (4, [3, 5]), (5, [4, 6]),
          (6, [5, 1])], [], []) ↔ ac = 1 ∧ rad = false) := by
  obtain ⟨t1, t2, t3⟩ := classify_chalcogen_aux an han ac rad ab ah
  obtain ⟨u1, u2, u3⟩ := classify_chalcogen_aux an han ac rad 2 0
  refine ⟨t1, t2, t3, ?_, ?_, ?_⟩
  · cases hcl : classifyAtom an ac rad 2 0 false with
    | error e =>
      rw [chalcogenRing_prepare an ac rad _ hcl]
      rw [hcl] at u1
      simp at u1 ⊢
      exact u1
    | ok r =>
      rw [chalcogenRing_prepare an ac rad _ hcl]
      have hP := u1.mp ⟨r, hcl⟩
      cases r <;> simp [hP.2]
  · cases hcl : classifyAtom an ac rad 2 0 false with
    | error e =>
      rw [chalcogenRing_prepare an ac rad _ hcl]
      rw [hcl] at u2
      simp at u2 ⊢
      exact u2
    | ok r =>
      rw [chalcogenRing_prepare an ac rad _ hcl]
      rw [hcl] at u2
      cases r <;> simp_all
  · cases hcl : classifyAtom an ac rad 2 0 false with
    | error e =>
      rw [chalcogenRing_prepare an ac rad _ hcl]
      rw [hcl] at u3
      simp at u3 ⊢
      exact u3
    | ok r =>
      rw [chalcogenRing_prepare an ac rad _ hcl]
      rw [hcl] at u3
      cases r <;> simp_all

/-- Witness for the amended C8 at the charge +1 non-radical sulphur: accepted
unclassified by the classifier, and the thiopyrylium-style ring prepared with
the sulphur in neither role set. -/
theorem classify_chalcogen_table_witness :
    classifyAtom 16 1 false 2 0 false = .ok .plain ∧
    prepareRings (chalcogenRing 16 1 false) =
      .ok ([(1, [2, 6]), (2, [1, 3]), (3, [2, 4]), (4, [3, 5]), (5, [4, 6]),
        (6, [5, 1])], [], []) :=
  ⟨(classify_chalcogen_table 16 (by decide) 1 false 2 0).2.2.1.mpr (by decide),
   (classify_chalcogen_table 16 (by decide) 1 false 2 0).2.2.2.2.2.mpr (by decide)⟩

/-! ## Branch exploration order of the search (C9) -/

/-- Counterexample to claim C9 on 1,4-diazinium, which has three Kekulé
forms.  The solution predicted by the claim (single-bond preferred at the
pyrole ambiguity of atom 1 and the first start neighbour explored first) is
the both-lone-pair form X = `[(1,2,1), (6,1,1), …]`; the search instead
yields it **last**: the first solution grows from the *last* start-neighbour
branch, and at atom 1's fork the double-bond continuation (order 2 on edge
1-6, solution Z) is explored to completion before the single-bond one (X). -/
theorem kekule_branch_order_counterexample :
    kekuleFull diazinium 100 = .ok
      [[(3, 2, 1), (4, 3, 2), (5, 4, 1), (6, 5, 2), (1, 6, 1), (2, 1, 2)],
       [(1, 2, 1), (6, 1, 2), (5, 6, 1), (4, 5, 2), (3, 4, 1), (2, 3, 2)],
       [(1, 2, 1), (6, 1, 1), (5, 6, 2), (4, 5, 1), (3, 4, 1), (2, 3, 2)]] ∧
    (kekuleFull diazinium 100 ≠ .ok
      [[(1, 2, 1), (6, 1, 1), (5, 6, 2), (4, 5, 1), (3, 4, 1), (2, 3, 2)],
       [(1, 2, 1), (6, 1, 2), (5, 6, 1), (4, 5, 2), (3, 4, 1), (2, 3, 2)],
       [(3, 2, 1), (4, 3, 2), (5, 4, 1), (6, 5, 2), (1, 6, 1), (2, 1, 2)]]) := by
  decide

/-- Claim C9 as amended: whenever the search pops a work item where both a
single- and a double-bond continuation are chemically valid, it explores the
**most recently pushed** alternative first.  (i) At a pyrole ambiguity (single
bond in, one fresh unforced forward neighbour, pyrole-like atom) the step
pushes the single-bond continuation with a cut marker into the current branch
and a fresh branch ending in the double-bond continuation on top of the
stack, and the next item popped from the active branch is that double-bond
continuation.  (ii) At an unforced two-neighbour fork the step pushes the
(first-neighbour single, second double) items into the current branch and the
(second single, first double) branch on top, and the next item popped assigns
the **double** bond towards the first neighbour.  (iii) The initial stack of
start branches is explored from the **last**-listed start neighbour.  So the
first solution yielded prefers the double-bond/most-recently-pushed choice at
every such branch point — not the single-bond/first-neighbour one. -/
theorem kekule_branch_order_amended :
    (∀ (rg : Skeleton) (dbl pyr : List Nat) (start size fuel : Nat)
       (branch br : Branch) (rest : List Branch) (path : List Triple)
       (hashed : List Nat) (acc : List (List Triple))
       (atom prev bond : Nat) (mk : Option Nat) (closures : List Nat) (na : Nat),
       pyPop branch = some (br, (atom, prev, bond, mk)) →
       path.length + 1 ≠ size → atom ≠ start →
       classifyNbrs (skelGet rg atom) prev start (atom :: hashed) =
         (0, closures, [na]) →
       bond ≠ 2 → atom ∉ dbl → na ∉ dbl → atom ∈ pyr →
       kloop rg dbl pyr start size (fuel + 1) (branch :: rest) path hashed acc =
         kloop rg dbl pyr start size fuel
           ((br ++ [(na, atom, 2, none)]) ::
             (br ++ [(na, atom, 1, some (path.length + 1))]) :: rest)
           (path ++ [(atom, prev, bond)]) (atom :: hashed) acc ∧
       pyPop (br ++ [(na, atom, 2, none)]) = some (br, (na, atom, 2, none))) ∧
    (∀ (rg : Skeleton) (dbl pyr : List Nat) (start size fuel : Nat)
       (branch br : Branch) (rest : List Branch) (path : List Triple)
       (hashed : List Nat) (acc : List (List Triple))
       (atom prev bond : Nat) (mk : Option Nat) (closures : List Nat) (na1 na2 : Nat),
       pyPop branch = some (br, (atom, prev, bond, mk)) →
       path.length + 1 ≠ size → atom ≠ start →
       classifyNbrs (skelGet rg atom) prev start (atom :: hashed) =
         (0, closures, [na1, na2]) →
       bond ≠ 2 → atom ∉ dbl → na1 ∉ dbl → na2 ∉ dbl →
       kloop rg dbl pyr start size (fuel + 1) (branch :: rest) path hashed acc =
         kloop rg dbl pyr start size fuel
           ((br ++ [(na2, atom, 1, none), (na1, atom, 2, none)]) ::
             (br ++ [(na1, atom, 1, none), (na2, atom, 2, some (path.length + 1))]) ::
               rest)
           (path ++ [(atom, prev, bond)]) (atom :: hashed) acc ∧
       pyPop (br ++ [(na2, atom, 1, none), (na1, atom, 2, none)]) =
         some (br ++ [(na2, atom, 1, none)], (na1, atom, 2, none))) ∧
    (∀ (rg : Skeleton) (pyr : List Nat) (st : Nat × List Nat) (ns : List Nat) (na : Nat),
       rg.find? (fun p => p.2.length = 2 ∧ p.1 ∉ pyr) = some st →
       st.2 = ns ++ [na] →
       kekuleStart rg [] pyr = some (st.1, [],
         [(na, st.1, 1, some 0)] ::
           (ns.map (fun x => [(x, st.1, 1, some 0)])).reverse)) := by
  refine ⟨?_, ?_, ?_⟩
  · intro rg dbl pyr start size fuel branch br rest path hashed acc
      atom prev bond mk closures na hpop hsize hstart hcls hbond hdbl hna hpyr
    constructor
    · simp [kloop, hpop, hcls, hsize, hstart, hbond, hdbl, hna, hpyr]
    · simp [pyPop, List.getLast?_concat, List.dropLast_concat]
  · intro rg dbl pyr start size fuel branch br rest path hashed acc
      atom prev bond mk closures na1 na2 hpop hsize hstart hcls hbond hdbl hna1 hna2
    constructor
    · simp [kloop, hpop, hcls, hsize, hstart, hbond, hdbl, hna1, hna2]
    · have h : br ++ [(na2, atom, 1, (none : Option Nat)), (na1, atom, 2, none)] =
          (br ++ [(na2, atom, 1, none)]) ++ [(na1, atom, 2, none)] := by simp
      rw [h]
      simp [pyPop, List.getLast?_concat, List.dropLast_concat]
  · intro rg pyr st ns na hfind hsplit
    simp only [kekuleStart]
    rw [hfind]
    simp [hsplit]

/-- Witness for the amended C9 at the pyrole fork the 1,4-diazinium search
actually reaches (skeleton the 6-ring, pyrole-like atom 1, start 2, arriving
at atom 1 from 2 on a single bond with fresh neighbour 6): the step pushes
the order-2 continuation branch on top of the order-1 branch, and the next
pop yields the double-bond item. -/
theorem kekule_branch_order_amended_witness :
    kloop [(1, [2, 6]), (2, [1, 3]), (3, [2, 4]), (4, [3, 5]), (5, [4, 6]), (6, [5, 1])]
        [] [1] 2 6 5 [[(1, 2, 1, some 0)]] [] [] [] =
      kloop [(1, [2, 6]), (2, [1, 3]), (3, [2, 4]), (4, [3, 5]), (5, [4, 6]), (6, [5, 1])]
        [] [1] 2 6 4 [[(6, 1, 2, none)], [(6, 1, 1, some 1)]] [(1, 2, 1)] [1] [] ∧
    pyPop ([(6, 1, 2, none)] : Branch) = some ([], (6, 1, 2, none)) :=
  kekule_branch_order_amended.1
    [(1, [2, 6]), (2, [1, 3]), (3, [2, 4]), (4, [3, 5]), (5, [4, 6]), (6, [5, 1])]
    [] [1] 2 6 4 [(1, 2, 1, some 0)] [] [] [] [] [] 1 2 1 (some 0) [] 6
    rfl (by decide) (by decide) rfl (by decide) (by decide)
    (by decide) (by decide)

end CGR
